import Mathlib

/-!
Shallow embedding of `src/core/server/src/eth_watch.rs` (the chain event
watcher of this repository): the binary priority-operation payload decoder,
the token registry and priority queue (`ETHState`), the watcher engine
operations `restore_state_from_eth` and `process_new_blocks`, the steady
poll tick of `EthWatch::run`, and the lock/network-call ordering of the two
state-mutating operations.

Byte buffers are `List Nat` (each element a `u8` value; where a claim needs
it, the bound `b < 256` is an explicit hypothesis).  Machine integers are
`Nat` with explicit `% 2 ^ w` where narrowing matters.  Rust code that can
panic is embedded with an explicit `panicked` outcome, and fallible code
with `Except`.
-/

namespace EthWatch

/-- Payload tag for deposits: `const DEPOSIT_OPTYPE_ID: u8 = 1u8`. -/
def DEPOSIT_OPTYPE_ID : Nat := 1

/-- Payload tag for full exits: `const FULLEXIT_OPTYPE_ID: u8 = 6u8`. -/
def FULLEXIT_OPTYPE_ID : Nat := 6

/-- Big-endian byte interpretation, as in `u16::from_be_bytes` /
`u32::from_be_bytes` / `u128::from_be_bytes`: the head byte is the most
significant. -/
def beBytesToNat : List Nat → Nat
  | [] => 0
  | b :: bs => b * 256 ^ bs.length + beBytesToNat bs

/-- Rust slice indexing `buf[a..b]`: defined (as `some`) exactly when
`a ≤ b ≤ buf.length`, otherwise the source panics with an index error. -/
def slice (l : List Nat) (a b : Nat) : Option (List Nat) :=
  if a ≤ b ∧ b ≤ l.length then some ((l.drop a).take (b - a)) else none

/-- Modelled from the spec: `AccountAddress::from_bytes` lives in the
`models` crate, which is not under `src/`; per the spec the target account
identifier has a fixed length `N` (`FR_ADDRESS_LEN`), so the conversion
succeeds exactly on byte strings of that length. -/
def accountAddressFromBytes (n : Nat) (bs : List Nat) : Option (List Nat) :=
  if bs.length = n then some bs else none

/-- Modelled from the spec: `BigDecimal::from_u128` is external crate code
(`bigdecimal` via `num_traits::FromPrimitive`), not under `src/`.  The
source marks the call site `// TODO: bigdecimal -> u128 conversion is
buggy.` and the spec (§9) records that the 128-bit-integer-to-decimal
conversion "is noted in source as buggy for some magnitudes".  The
`FromPrimitive` default `from_u128` routes through `from_u64`: it is exact
for values below `2 ^ 64` and returns `None` (so the source's `.unwrap()`
panics) at and above `2 ^ 64`. -/
def bigDecimalFromU128 (n : Nat) : Option Nat :=
  if n < 2 ^ 64 then some n else none

/-- The decoded payload `PriorityOpData`: a deposit
`{sender, token, amount, account}` or a full exit
`{account_id, eth_address, token, signature}`. -/
inductive PriorityOpData where
  | deposit (sender : List Nat) (token : Nat) (amount : Nat) (account : List Nat)
  | fullExit (account_id : Nat) (eth_address : List Nat) (token : Nat)
      (signature : List Nat)
  deriving DecidableEq, Repr

/-- Outcome of `PriorityOpData::parse_pubdata`.  The Rust function returns
`Self` — it has no error channel at all — so the only outcomes are a decoded
variant or a panic (from out-of-range slicing, a failed `.unwrap()`, or the
explicit `panic!` on an unsupported tag). -/
inductive ParseOutcome where
  | ok (d : PriorityOpData)
  | panicked (msg : String)
  deriving DecidableEq, Repr

/-- Embedding of `PriorityOpData::parse_pubdata(pub_data, op_type_id)`,
parameterised by `frAddressLen` (`FR_ADDRESS_LEN` from the `models` crate).
Field extraction follows the source order exactly:

* tag 1 (deposit): `sender = pub_data[0..20]`,
  `token = u16::from_be_bytes(pub_data[20..22])`,
  `amount = BigDecimal::from_u128(u128::from_be_bytes(pub_data[22..38])).unwrap()`,
  `account = AccountAddress::from_bytes(pub_data[38..38+FR_ADDRESS_LEN]).unwrap()`;
* tag 6 (full exit): `account_id` places `pub_data[0..3]` into bytes 1..4 of
  a zeroed 4-byte array read as a big-endian `u32`,
  `eth_address = pub_data[2..22]`, `token = u16::from_be_bytes(pub_data[22..24])`,
  `signature = pub_data[24..88]`;
* any other tag: `panic!("Unsupported priority queue op type.")`. -/
def parse_pubdata (frAddressLen : Nat) (pub_data : List Nat) (op_type_id : Nat) :
    ParseOutcome :=
  if op_type_id = DEPOSIT_OPTYPE_ID then
    match slice pub_data 0 20 with
    | none => .panicked "index out of range"
    | some sender =>
      match slice pub_data 20 22 with
      | none => .panicked "index out of range"
      | some tokenBytes =>
        match slice pub_data 22 38 with
        | none => .panicked "index out of range"
        | some amountBytes =>
          match bigDecimalFromU128 (beBytesToNat amountBytes) with
          | none => .panicked "called Option::unwrap on a None value"
          | some amount =>
            match slice pub_data 38 (38 + frAddressLen) with
            | none => .panicked "index out of range"
            | some accountBytes =>
              match accountAddressFromBytes frAddressLen accountBytes with
              | none => .panicked "called Option::unwrap on a None value"
              | some account =>
                .ok (.deposit sender (beBytesToNat tokenBytes) amount account)
  else if op_type_id = FULLEXIT_OPTYPE_ID then
    match slice pub_data 0 3 with
    | none => .panicked "index out of range"
    | some accountIdBytes =>
      match slice pub_data 2 22 with
      | none => .panicked "index out of range"
      | some eth_address =>
        match slice pub_data 22 24 with
        | none => .panicked "index out of range"
        | some tokenBytes =>
          match slice pub_data 24 88 with
          | none => .panicked "index out of range"
          | some signature =>
            .ok (.fullExit (beBytesToNat (0 :: accountIdBytes)) eth_address
              (beBytesToNat tokenBytes) signature)
  else
    .panicked "Unsupported priority queue op type."

/-- A decoded `TokenAdded(address, uint32)` event from the governance
contract: `struct TokenAddedEvent { address: Address, id: u32 }`. -/
structure TokenAddedEvent where
  address : List Nat
  id : Nat
  deriving DecidableEq, Repr

/-- A decoded `NewPriorityRequest` event:
`struct PriorityOp { data, deadline_block, eth_fee }`.  The fee, an
arbitrary-precision decimal holding a chain integer, is a `Nat`. -/
structure PriorityOp where
  data : PriorityOpData
  deadline_block : Nat
  eth_fee : Nat
  deriving DecidableEq, Repr

/-- Narrowing cast `token.id as TokenId` applied to the event's `u32` id
before insertion into the registry.  Modelled from the spec: the `TokenId`
type lives in the `models` crate, not under `src/`, so its bit-width is a
parameter `w`; a Rust `as` cast to a `w`-bit unsigned type truncates
modulo `2 ^ w` (and is the identity when `w` is at least the source
width). -/
def asTokenId (w : Nat) (id : Nat) : Nat :=
  id % 2 ^ w

/-- Token registry lookup in the `HashMap<TokenId, Address>`, modelled as an
association list with unique keys. -/
def lookupToken : List (Nat × List Nat) → Nat → Option (List Nat)
  | [], _ => none
  | (k, v) :: rest, id => if k = id then some v else lookupToken rest id

/-- Registry insertion with `HashMap::insert` semantics: if the key is
present its value is overwritten in place, otherwise a new entry is
appended; nothing is ever removed. -/
def insertToken : List (Nat × List Nat) → Nat → List Nat → List (Nat × List Nat)
  | [], id, a => [(id, a)]
  | (k, v) :: rest, id, a =>
      if k = id then (id, a) :: rest else (k, v) :: insertToken rest id a

/-- The shared watcher state `ETHState { tokens, priority_queue }`. -/
structure ETHState where
  tokens : List (Nat × List Nat)
  priority_queue : List PriorityOp
  deriving DecidableEq, Repr

/-- Embedding of `ETHState::add_new_token(id, address)`:
`self.tokens.insert(id, address)`. -/
def add_new_token (st : ETHState) (id : Nat) (address : List Nat) : ETHState :=
  { st with tokens := insertToken st.tokens id address }

/-- The chain client consumed by the engine (`web3`), an external
collaborator: a fallible height query and the two fallible, decoded log
queries (`get_new_token_events` / `get_priority_op_events`) over an
inclusive block range. -/
structure ChainClient where
  block_number : Except String Nat
  tokenEvents : Nat → Nat → Except String (List TokenAddedEvent)
  priorityEvents : Nat → Nat → Except String (List PriorityOp)

/-- A pure view of the chain for instantiating the client: each log list
pairs a block number with the decoded event found there. -/
structure Chain where
  tokenLogs : List (Nat × TokenAddedEvent)
  priorityLogs : List (Nat × PriorityOp)

/-- Logs matching an inclusive block-range filter `[lo, hi]`, in chain
order. -/
def logsInRange {E : Type} (logs : List (Nat × E)) (lo hi : Nat) : List E :=
  (logs.filter (fun p => lo ≤ p.1 && p.1 ≤ hi)).map Prod.snd

/-- The chain client induced by a pure chain view: every query succeeds and
returns exactly the logs in the requested inclusive range
(`BlockNumber::Earliest` is block `0`). -/
def pureClient (height : Nat) (chain : Chain) : ChainClient where
  block_number := .ok height
  tokenEvents := fun lo hi => .ok (logsInRange chain.tokenLogs lo hi)
  priorityEvents := fun lo hi => .ok (logsInRange chain.priorityLogs lo hi)

/-- The mutable engine fields touched by the loop: the cursor
`processed_block` and the lock-guarded `eth_state`. -/
structure EthWatchState where
  processed_block : Nat
  eth_state : ETHState
  deriving DecidableEq, Repr

/-- Embedding of `EthWatch::restore_state_from_eth(block)`, parameterised by
the `TokenId` width `w` and `PRIORITY_EXPIRATION` (a constant of the
`models` crate).  It extends the priority queue with the events of the
window `[block.saturating_sub(PRIORITY_EXPIRATION), block]` (saturating
subtraction is `Nat` subtraction) and folds every `TokenAdded` event of
`[Earliest, block]` into the registry via `add_new_token` with the
`as TokenId` cast.  The source unwraps both queries with `expect`, a panic;
that fatal path is the `Except.error` case here. -/
def restore_state_from_eth (w PRIORITY_EXPIRATION : Nat) (client : ChainClient)
    (block : Nat) (st : ETHState) : Except String ETHState :=
  match client.priorityEvents (block - PRIORITY_EXPIRATION) block with
  | .error e => .error e
  | .ok prior_queue_events =>
    let st1 : ETHState :=
      { st with priority_queue := st.priority_queue ++ prior_queue_events }
    match client.tokenEvents 0 block with
    | .error e => .error e
    | .ok new_tokens =>
      .ok (new_tokens.foldl
        (fun s token => add_new_token s (asTokenId w token.id) token.address) st1)

/-- Embedding of `EthWatch::process_new_blocks(last_block)`.  It first runs
both log queries over `(processed_block, last_block]` (each `?` propagates
the error before anything is mutated), then, under the write lock, pushes
the priority events and folds the token events into the registry.  Like the
source it never touches `processed_block`.  Returns the watcher fields
after the call together with the `Result<(), Error>`. -/
def process_new_blocks (w : Nat) (client : ChainClient) (last_block : Nat)
    (watch : EthWatchState) : EthWatchState × Except String Unit :=
  match client.tokenEvents (watch.processed_block + 1) last_block with
  | .error e => (watch, .error e)
  | .ok new_tokens =>
    match client.priorityEvents (watch.processed_block + 1) last_block with
    | .error e => (watch, .error e)
    | .ok priority_op_events =>
      let st1 : ETHState :=
        { watch.eth_state with
            priority_queue := watch.eth_state.priority_queue ++ priority_op_events }
      let st2 : ETHState := new_tokens.foldl
        (fun s token => add_new_token s (asTokenId w token.id) token.address) st1
      ({ watch with eth_state := st2 }, .ok ())

/-- One iteration of the steady `loop` body of `EthWatch::run` (minus the
sleep): query the height; on failure `continue` (no commit); otherwise, if
`block > self.processed_block`, call `self.process_new_blocks(block)` —
whose `Result` the source discards — and then `self.commit_state()`
unconditionally.  Nothing in the loop writes `processed_block`.  The
boolean records whether `commit_state` was called this tick. -/
def run_tick (w : Nat) (client : ChainClient) (watch : EthWatchState) :
    EthWatchState × Bool :=
  match client.block_number with
  | .error _ => (watch, false)
  | .ok block =>
    if block > watch.processed_block then
      ((process_new_blocks w client block watch).1, true)
    else
      (watch, false)

/-- An observable effect of an engine operation, for stating the
lock/network ordering discipline: taking or dropping the exclusive
(`write`) lock on `eth_state`, a blocking chain-client call
(`.logs(filter).wait()` inside `get_new_token_events` /
`get_priority_op_events`), or an in-memory merge into the guarded state. -/
inductive LockStep where
  | acquireWriteLock
  | releaseWriteLock
  | networkCall
  | memMerge
  deriving DecidableEq, Repr

/-- Effect order of `EthWatch::restore_state_from_eth`, read off the source:
`self.eth_state.write()` is taken first (line 295), then the priority-log
query runs (blocking, lines 298–303), the queue is extended, then the
token-log query runs (blocking, lines 309–311), and the tokens are merged;
the guard drops at end of scope. -/
def restoreSteps : List LockStep :=
  [.acquireWriteLock, .networkCall, .memMerge, .networkCall, .memMerge,
   .releaseWriteLock]

/-- Effect order of `EthWatch::process_new_blocks`, read off the source: the
token-log and priority-log queries run first (blocking, lines 322–329),
then `self.eth_state.write()` is taken (line 331), both merges happen in
memory, and the guard drops at end of scope. -/
def processNewBlocksSteps : List LockStep :=
  [.networkCall, .networkCall, .acquireWriteLock, .memMerge, .memMerge,
   .releaseWriteLock]

/-- Checks that a trace performs no blocking network call while the
exclusive lock is held (the flag tracks whether the lock is held). -/
def networkFreeWhileLocked : List LockStep → Bool → Bool
  | [], _ => true
  | .acquireWriteLock :: rest, _ => networkFreeWhileLocked rest true
  | .releaseWriteLock :: rest, _ => networkFreeWhileLocked rest false
  | .networkCall :: rest, locked => !locked && networkFreeWhileLocked rest locked
  | .memMerge :: rest, locked => networkFreeWhileLocked rest locked

/-- Registry fold shared by catch-up and advance: every decoded
`TokenAdded` event is inserted under its `as TokenId`-narrowed id. -/
def mergeTokens (w : Nat) (events : List TokenAddedEvent)
    (m : List (Nat × List Nat)) : List (Nat × List Nat) :=
  events.foldl (fun acc t => insertToken acc (asTokenId w t.id) t.address) m

/-- Number of registry entries held under a given key. -/
def countKey (m : List (Nat × List Nat)) (id : Nat) : Nat :=
  (m.filter (fun p => p.1 = id)).length

/-- A chain client whose log queries fail (an injected failing stub, as the
spec's partial-failure test suggests). -/
def failingTokenClient : ChainClient where
  block_number := .ok 5
  tokenEvents := fun _ _ => .error "io error"
  priorityEvents := fun _ _ => .error "io error"

/-- A chain view with no logs at all. -/
def emptyChain : Chain where
  tokenLogs := []
  priorityLogs := []

/-- Client for a quiet tick at height 5: the height query and both log
queries succeed, the chain carries no events. -/
def quietTickClient : ChainClient where
  block_number := .ok 5
  tokenEvents := fun lo hi => .ok (logsInRange emptyChain.tokenLogs lo hi)
  priorityEvents := fun lo hi => .ok (logsInRange emptyChain.priorityLogs lo hi)

/-- Client for a tick at height 5 whose log queries fail. -/
def failingTickClient : ChainClient where
  block_number := .ok 5
  tokenEvents := fun _ _ => .error "log query failed"
  priorityEvents := fun _ _ => .error "log query failed"

/-- Watcher fields with the cursor at block 4 and empty state. -/
def watchAt4 : EthWatchState where
  processed_block := 4
  eth_state := { tokens := [], priority_queue := [] }

/-- A concrete priority operation (a deposit with deadline 200). -/
def sampleOp : PriorityOp where
  data := .deposit [] 3 0 []
  deadline_block := 200
  eth_fee := 0

/-- The spec's expiration-window scenario: a single priority event recorded
at block 40 and nothing else. -/
def chainWithOpAt40 : Chain where
  tokenLogs := []
  priorityLogs := [(40, sampleOp)]

/-- A stub client that answers every log query with a fixed list of token
events and no priority events. -/
def constTokenClient (events : List TokenAddedEvent) : ChainClient where
  block_number := .ok 0
  tokenEvents := fun _ _ => .ok events
  priorityEvents := fun _ _ => .ok []

/-- A 40-byte deposit buffer (account-identifier length 2) whose 16-byte
amount field holds exactly `2 ^ 64`: byte 29 is 1, all others 0. -/
def bigAmountBuf : List Nat :=
  List.replicate 29 0 ++ 1 :: List.replicate 10 0

/-- A 40-byte deposit buffer (account-identifier length 2) whose amount is
below `2 ^ 64`: sender bytes 0–21 count up, the amount's top half is zero. -/
def smallDepositBuf : List Nat :=
  List.range 22 ++ List.replicate 8 0 ++ [1, 2, 3, 4, 5, 6, 7, 8] ++ [9, 10]

/-- Characterisation of in-bounds slicing. -/
theorem slice_some (l : List Nat) (a b : Nat) (h1 : a ≤ b) (h2 : b ≤ l.length) :
    slice l a b = some ((l.drop a).take (b - a)) := by
  simp [slice, h1, h2]

/-- A successful slice has exactly the requested length. -/
theorem slice_length {l s : List Nat} {a b : Nat} (h : slice l a b = some s) :
    s.length = b - a := by
  unfold slice at h
  split at h
  · rename_i hc
    cases h
    simp only [List.length_take, List.length_drop]
    omega
  · exact absurd h (by simp)

/-- Every byte of a successful slice is a byte of the buffer. -/
theorem slice_subset {l s : List Nat} {a b : Nat} (h : slice l a b = some s) :
    ∀ x ∈ s, x ∈ l := by
  unfold slice at h
  split at h
  · cases h
    intro x hx
    exact List.mem_of_mem_drop (List.mem_of_mem_take hx)
  · exact absurd h (by simp)

/-- A leading zero byte does not change the big-endian value. -/
theorem beBytesToNat_zero_cons (bs : List Nat) :
    beBytesToNat (0 :: bs) = beBytesToNat bs := by
  simp [beBytesToNat]

/-- A string of bytes (values below 256) denotes a value below
`256 ^ length`. -/
theorem beBytesToNat_lt (bs : List Nat) (h : ∀ x ∈ bs, x < 256) :
    beBytesToNat bs < 256 ^ bs.length := by
  induction bs with
  | nil => simp [beBytesToNat]
  | cons b rest ih =>
    have hb : b < 256 := h b (by simp)
    have hr := ih (fun x hx => h x (by simp [hx]))
    have hpow : (b + 1) * 256 ^ rest.length ≤ 256 * 256 ^ rest.length :=
      Nat.mul_le_mul_right _ hb
    simp only [beBytesToNat, List.length_cons, pow_succ]
    calc b * 256 ^ rest.length + beBytesToNat rest
        < (b + 1) * 256 ^ rest.length := by nlinarith
      _ ≤ 256 * 256 ^ rest.length := hpow
      _ = 256 ^ rest.length * 256 := by ring

/-- Two leading bytes read big-endian. -/
theorem beBytesToNat_take_two (l : List Nat) (h : 2 ≤ l.length) :
    beBytesToNat (l.take 2) = 256 * l.getD 0 0 + l.getD 1 0 := by
  rcases l with _ | ⟨a, _ | ⟨b, rest⟩⟩
  · simp at h
  · simp at h
  · simp [beBytesToNat, List.getD, pow_succ, pow_zero]
    omega

/-- Three leading bytes read big-endian (under a zero top byte). -/
theorem beBytesToNat_take_three (l : List Nat) (h : 3 ≤ l.length) :
    beBytesToNat (0 :: l.take 3) =
      65536 * l.getD 0 0 + 256 * l.getD 1 0 + l.getD 2 0 := by
  rcases l with _ | ⟨a, _ | ⟨b, _ | ⟨c, rest⟩⟩⟩
  · simp at h
  · simp at h
  · simp at h
  · simp [beBytesToNat, List.getD, pow_succ, pow_zero]
    omega

/-- Reading at an index of a dropped list. -/
theorem getD_drop (l : List Nat) (i j : Nat) :
    (l.drop i).getD j 0 = l.getD (i + j) 0 := by
  simp [List.getD_eq_getElem?_getD, List.getElem?_drop]

/-- Inserting a key makes it resolve to the inserted value. -/
theorem lookupToken_insertToken_self (m : List (Nat × List Nat)) (id : Nat)
    (a : List Nat) : lookupToken (insertToken m id a) id = some a := by
  induction m with
  | nil => simp [insertToken, lookupToken]
  | cons p rest ih =>
    obtain ⟨k, v⟩ := p
    by_cases hk : k = id
    · simp [insertToken, hk, lookupToken]
    · simp [insertToken, hk, lookupToken, ih]

/-- Inserting one key leaves lookups of other keys unchanged. -/
theorem lookupToken_insertToken_ne (m : List (Nat × List Nat)) (id k : Nat)
    (a : List Nat) (hne : k ≠ id) :
    lookupToken (insertToken m id a) k = lookupToken m k := by
  induction m with
  | nil =>
    simp only [insertToken, lookupToken]
    rw [if_neg (fun h => hne h.symm)]
  | cons p rest ih =>
    obtain ⟨k0, v⟩ := p
    by_cases hk : k0 = id
    · subst hk
      simp only [insertToken, if_pos rfl, lookupToken]
      rw [if_neg (fun h => hne h.symm), if_neg (fun h => hne h.symm)]
    · simp only [insertToken, if_neg hk, lookupToken, ih]

/-- Insertion never drops a mapped key. -/
theorem lookupToken_insertToken_isSome (m : List (Nat × List Nat))
    (id k : Nat) (a : List Nat) (h : (lookupToken m k).isSome) :
    (lookupToken (insertToken m id a) k).isSome := by
  by_cases hk : k = id
  · subst hk
    simp [lookupToken_insertToken_self]
  · rw [lookupToken_insertToken_ne _ _ _ _ hk]
    exact h

/-- Key-set of an insertion: the old keys plus the inserted key. -/
theorem mem_keys_insertToken (m : List (Nat × List Nat)) (id : Nat)
    (a : List Nat) (j : Nat) :
    j ∈ (insertToken m id a).map Prod.fst ↔ j ∈ m.map Prod.fst ∨ j = id := by
  induction m with
  | nil => simp [insertToken]
  | cons p rest ih =>
    obtain ⟨k, v⟩ := p
    by_cases hk : k = id
    · subst hk
      simp [insertToken]
      tauto
    · simp [insertToken, hk, ih]
      tauto

/-- Insertion preserves key uniqueness. -/
theorem nodup_keys_insertToken (m : List (Nat × List Nat)) (id : Nat)
    (a : List Nat) (h : (m.map Prod.fst).Nodup) :
    ((insertToken m id a).map Prod.fst).Nodup := by
  induction m with
  | nil => simp [insertToken]
  | cons p rest ih =>
    obtain ⟨k, v⟩ := p
    rw [List.map_cons, List.nodup_cons] at h
    by_cases hk : k = id
    · subst hk
      simpa [insertToken, List.nodup_cons] using h
    · rw [show insertToken ((k, v) :: rest) id a
          = (k, v) :: insertToken rest id a by simp [insertToken, hk]]
      rw [List.map_cons, List.nodup_cons]
      refine ⟨fun hmem => ?_, ih h.2⟩
      rcases (mem_keys_insertToken rest id a k).mp hmem with h1 | h2
      · exact h.1 h1
      · exact hk h2

/-- A key not present is counted zero times. -/
theorem countKey_eq_zero_of_not_mem (m : List (Nat × List Nat)) (id : Nat)
    (h : id ∉ m.map Prod.fst) : countKey m id = 0 := by
  induction m with
  | nil => simp [countKey]
  | cons p rest ih =>
    obtain ⟨k, v⟩ := p
    rw [List.map_cons, List.mem_cons] at h
    push_neg at h
    simp only [countKey, List.filter_cons]
    rw [if_neg (by simpa using fun hkid => h.1 hkid.symm)]
    exact ih h.2

/-- On a registry with unique keys, insertion leaves exactly one entry for
the inserted key. -/
theorem countKey_insertToken (m : List (Nat × List Nat)) (id : Nat)
    (a : List Nat) (h : (m.map Prod.fst).Nodup) :
    countKey (insertToken m id a) id = 1 := by
  induction m with
  | nil => simp [insertToken, countKey]
  | cons p rest ih =>
    obtain ⟨k, v⟩ := p
    rw [List.map_cons, List.nodup_cons] at h
    by_cases hk : k = id
    · subst hk
      have hz := countKey_eq_zero_of_not_mem rest k h.1
      simp only [insertToken, if_pos rfl, countKey, List.filter_cons] at *
      rw [if_pos (by simp)]
      simpa using hz
    · have hrest := ih h.2
      simp only [insertToken, if_neg hk, countKey, List.filter_cons] at *
      rw [if_neg (by simpa using hk)]
      exact hrest

/-- The state fold of the two merge loops acts on the registry via
`mergeTokens` and leaves the priority queue untouched. -/
theorem foldl_add_new_token (w : Nat) (events : List TokenAddedEvent)
    (st : ETHState) :
    events.foldl (fun s t => add_new_token s (asTokenId w t.id) t.address) st =
      { st with tokens := mergeTokens w events st.tokens } := by
  induction events generalizing st with
  | nil => simp [mergeTokens]
  | cons e rest ih =>
    rw [List.foldl_cons, ih]
    simp [add_new_token, mergeTokens]

/-- The registry fold never drops a mapped key. -/
theorem lookupToken_mergeTokens_isSome (w : Nat)
    (events : List TokenAddedEvent) (m : List (Nat × List Nat)) (k : Nat)
    (h : (lookupToken m k).isSome) :
    (lookupToken (mergeTokens w events m) k).isSome := by
  induction events generalizing m with
  | nil => simpa [mergeTokens] using h
  | cons e rest ih =>
    simp only [mergeTokens, List.foldl_cons]
    exact ih _ (lookupToken_insertToken_isSome _ _ _ _ h)

/-- C2: for every byte buffer of length at least 88 decoded with tag 6
(FullExit), the decoder succeeds and returns the account id obtained by
placing bytes [0,3) as the low-order three bytes of a big-endian u32 (top
byte zero), the eth address read from bytes [2,22) (reproducing the
one-byte overlap with the account-id field), the big-endian u16 token id at
bytes [22,24), and exactly bytes [24,88) as the signature. -/
theorem fullExit_decode_layout (frAddressLen : Nat) (pd : List Nat)
    (h : 88 ≤ pd.length) :
    parse_pubdata frAddressLen pd 6 = .ok (.fullExit
      (65536 * pd.getD 0 0 + 256 * pd.getD 1 0 + pd.getD 2 0)
      ((pd.drop 2).take 20)
      (256 * pd.getD 22 0 + pd.getD 23 0)
      ((pd.drop 24).take 64)) := by
  have h03 := slice_some pd 0 3 (by omega) (by omega)
  have h222 := slice_some pd 2 22 (by omega) (by omega)
  have h2224 := slice_some pd 22 24 (by omega) (by omega)
  have h2488 := slice_some pd 24 88 (by omega) (by omega)
  norm_num at h03 h222 h2224 h2488
  simp only [parse_pubdata, DEPOSIT_OPTYPE_ID, FULLEXIT_OPTYPE_ID,
    h03, h222, h2224, h2488]
  norm_num
  constructor
  · rw [beBytesToNat_take_three pd (by omega)]
    norm_num [List.getD_eq_getElem?_getD]
  · rw [beBytesToNat_take_two (pd.drop 22) (by simp; omega)]
    rw [getD_drop, getD_drop]
    norm_num [List.getD_eq_getElem?_getD]

/-- C2 witness: the 88-byte buffer of bytes 0,1,…,87 decodes to the
full exit with account id 258, address bytes 2..21, token 5655 and
signature bytes 24..87. -/
theorem fullExit_decode_layout_witness :
    88 ≤ (List.range 88).length ∧
    parse_pubdata 27 (List.range 88) 6 = .ok (.fullExit 258
      ((List.range 20).map (fun i => i + 2)) 5655
      ((List.range 64).map (fun i => i + 24))) := by
  refine ⟨by simp, (fullExit_decode_layout 27 (List.range 88) (by simp)).trans ?_⟩
  decide

/-- C3 counterexample: decoding the empty buffer with tag 2 (outside
{1, 6}) hits the source's explicit
`panic!("Unsupported priority queue op type.")`.  `parse_pubdata` returns
`Self` — `ParseOutcome` has no error constructor at all — so the claim's
"yields a decode failure (an error value), never a crash/panic" is false:
the outcome is a panic, not an error value. -/
theorem unsupported_tag_counterexample :
    parse_pubdata 27 [] 2 = .panicked "Unsupported priority queue op type." := by
  decide

/-- C3 (amended): for every buffer and every tag outside {1, 6}, decoding
panics with "Unsupported priority queue op type." — never a default
variant, never a successfully decoded one, and never a recoverable error
value (the function has no error channel). -/
theorem unsupported_tag_panics (frAddressLen : Nat) (pd : List Nat)
    (tag : Nat) (h1 : tag ≠ DEPOSIT_OPTYPE_ID) (h6 : tag ≠ FULLEXIT_OPTYPE_ID) :
    parse_pubdata frAddressLen pd tag =
      .panicked "Unsupported priority queue op type." := by
  unfold parse_pubdata
  rw [if_neg h1, if_neg h6]

/-- C3 witness: tag 0 on the empty buffer panics. -/
theorem unsupported_tag_panics_witness :
    (0 : Nat) ≠ DEPOSIT_OPTYPE_ID ∧ (0 : Nat) ≠ FULLEXIT_OPTYPE_ID ∧
    parse_pubdata 27 [] 0 = .panicked "Unsupported priority queue op type." :=
  ⟨by decide, by decide, unsupported_tag_panics 27 [] 0 (by decide) (by decide)⟩

/-- C5 counterexample: a 40-byte deposit buffer (account-identifier length
2) whose 16 amount bytes encode exactly `2 ^ 64` — a value representable in
128 bits — does not decode to a `Deposit` with that amount: the
`BigDecimal::from_u128(..).unwrap()` conversion (flagged
`// TODO: bigdecimal -> u128 conversion is buggy.` in the source) fails
above `2 ^ 64` and the decode panics, so the claim's "round-trips exactly
for every value representable in 128 bits" is false. -/
theorem deposit_amount_counterexample :
    bigAmountBuf.length = 38 + 2 ∧
    beBytesToNat ((bigAmountBuf.drop 22).take 16) = 2 ^ 64 ∧
    parse_pubdata 2 bigAmountBuf 1 =
      .panicked "called Option::unwrap on a None value" := by
  refine ⟨by decide, by decide, by decide⟩

/-- C5 (amended): for every buffer of length at least `38 + N` decoded with
tag 1 (Deposit) whose 128-bit big-endian amount field is below `2 ^ 64`,
the decoder succeeds with sender bytes [0,20), the big-endian u16 token id
at [20,22), the amount exactly equal to the big-endian integer at [22,38)
(no truncation), and account identifier bytes [38,38+N); amounts at or
above `2 ^ 64` make the conversion the source flags as buggy fail, so
exact round-tripping holds only below `2 ^ 64`. -/
theorem deposit_decode_layout (frAddressLen : Nat) (pd : List Nat)
    (hlen : 38 + frAddressLen ≤ pd.length)
    (hamt : beBytesToNat ((pd.drop 22).take 16) < 2 ^ 64) :
    parse_pubdata frAddressLen pd 1 = .ok (.deposit
      (pd.take 20)
      (256 * pd.getD 20 0 + pd.getD 21 0)
      (beBytesToNat ((pd.drop 22).take 16))
      ((pd.drop 38).take frAddressLen)) := by
  have h020 := slice_some pd 0 20 (by omega) (by omega)
  have h2022 := slice_some pd 20 22 (by omega) (by omega)
  have h2238 := slice_some pd 22 38 (by omega) (by omega)
  have h38 := slice_some pd 38 (38 + frAddressLen) (by omega) (by omega)
  norm_num at h020 h2022 h2238 h38
  have hacct : accountAddressFromBytes frAddressLen
      ((pd.drop 38).take frAddressLen) = some ((pd.drop 38).take frAddressLen) := by
    unfold accountAddressFromBytes
    rw [if_pos (by simp [List.length_take, List.length_drop]; omega)]
  have hconv : bigDecimalFromU128 (beBytesToNat ((pd.drop 22).take 16)) =
      some (beBytesToNat ((pd.drop 22).take 16)) := by
    unfold bigDecimalFromU128
    rw [if_pos hamt]
  simp only [parse_pubdata, DEPOSIT_OPTYPE_ID, FULLEXIT_OPTYPE_ID,
    h020, h2022, h2238, h38, hconv, hacct]
  norm_num
  rw [beBytesToNat_take_two (pd.drop 20) (by simp; omega)]
  rw [getD_drop, getD_drop]
  norm_num [List.getD_eq_getElem?_getD]

/-- C5 witness: a concrete deposit buffer with amount
0x0102030405060708 decodes exactly. -/
theorem deposit_decode_layout_witness :
    38 + 2 ≤ smallDepositBuf.length ∧
    beBytesToNat ((smallDepositBuf.drop 22).take 16) < 2 ^ 64 ∧
    parse_pubdata 2 smallDepositBuf 1 = .ok (.deposit (List.range 20) 5141
      72623859790382856 [9, 10]) := by
  refine ⟨by decide, by decide,
    (deposit_decode_layout 2 smallDepositBuf (by decide) (by decide)).trans ?_⟩
  decide

/-- C9: every buffer (of u8 bytes) that successfully decodes as a FullExit
payload yields an account id strictly below `2 ^ 24`, since only three
input bytes are placed into the low-order positions of the 4-byte
big-endian integer. -/
theorem fullExit_account_id_bound (frAddressLen : Nat) (pd : List Nat)
    (hbytes : ∀ b ∈ pd, b < 256) (aid : Nat) (addr : List Nat) (tok : Nat)
    (sig : List Nat)
    (h : parse_pubdata frAddressLen pd 6 = .ok (.fullExit aid addr tok sig)) :
    aid < 2 ^ 24 := by
  unfold parse_pubdata at h
  rw [if_neg (by decide), if_pos (by decide)] at h
  cases h03 : slice pd 0 3 with
  | none => rw [h03] at h; simp at h
  | some s0 =>
    rw [h03] at h
    cases h222 : slice pd 2 22 with
    | none => rw [h222] at h; simp at h
    | some s1 =>
      rw [h222] at h
      cases h2224 : slice pd 22 24 with
      | none => rw [h2224] at h; simp at h
      | some s2 =>
        rw [h2224] at h
        cases h2488 : slice pd 24 88 with
        | none => rw [h2488] at h; simp at h
        | some s3 =>
          rw [h2488] at h
          simp only [ParseOutcome.ok.injEq, PriorityOpData.fullExit.injEq] at h
          have haid : aid = beBytesToNat (0 :: s0) := h.1.symm
          have hlen : s0.length = 3 := slice_length h03
          have hlt : beBytesToNat s0 < 256 ^ s0.length :=
            beBytesToNat_lt s0 (fun x hx => hbytes x (slice_subset h03 x hx))
          rw [haid, beBytesToNat_zero_cons]
          calc beBytesToNat s0 < 256 ^ s0.length := hlt
            _ = 2 ^ 24 := by rw [hlen]; norm_num

/-- C9 witness: the 88-byte buffer of bytes 0,1,…,87 decodes to account id
258, which is below `2 ^ 24`. -/
theorem fullExit_account_id_bound_witness :
    parse_pubdata 27 (List.range 88) 6 = .ok (.fullExit 258
      (((List.range 88).drop 2).take 20) 5655
      (((List.range 88).drop 24).take 64)) ∧
    (258 : Nat) < 2 ^ 24 :=
  ⟨by decide, fullExit_account_id_bound 27 (List.range 88) (by decide) 258
    (((List.range 88).drop 2).take 20) 5655 (((List.range 88).drop 24).take 64)
    (by decide)⟩

/-- C4 counterexample: `restore_state_from_eth` violates the claimed
discipline — its effect trace acquires the exclusive lock first and then
performs the two blocking log queries while holding it, so "all blocking
network I/O is performed before the exclusive lock is acquired" is false
for one of the two state-mutating operations. -/
theorem lock_ordering_counterexample :
    networkFreeWhileLocked restoreSteps false = false := by
  decide

/-- C4 (amended): `process_new_blocks` performs all blocking network I/O
before acquiring the exclusive lock and holds the lock only for the
in-memory merge, but `restore_state_from_eth` acquires the exclusive lock
before its log queries and holds it across both blocking chain-client
calls. -/
theorem lock_ordering :
    networkFreeWhileLocked processNewBlocksSteps false = true ∧
    networkFreeWhileLocked restoreSteps false = false := by
  decide

/-- C6: if `process_new_blocks` returns an error — from either chain-client
query (decode failures surface through the same query results) — the
watcher fields on return, both the cursor `processed_block` and the whole
`ETHState` (token registry and priority queue), equal the fields on entry:
no partial merge is applied on failure. -/
theorem advance_failure_leaves_state (w : Nat) (client : ChainClient)
    (last_block : Nat) (watch : EthWatchState) (e : String)
    (h : (process_new_blocks w client last_block watch).2 = .error e) :
    (process_new_blocks w client last_block watch).1 = watch := by
  unfold process_new_blocks at h ⊢
  cases ht : client.tokenEvents (watch.processed_block + 1) last_block with
  | error e2 => rfl
  | ok toks =>
    cases hp : client.priorityEvents (watch.processed_block + 1) last_block with
    | error e2 => rfl
    | ok ops =>
      rw [ht, hp] at h
      simp at h

/-- C6 witness: with an injected failing chain-client stub, the advance
errors and the watcher fields are exactly the entry fields. -/
theorem advance_failure_leaves_state_witness :
    (process_new_blocks 16 failingTokenClient 5 watchAt4).2 = .error "io error" ∧
    (process_new_blocks 16 failingTokenClient 5 watchAt4).1 = watchAt4 :=
  ⟨rfl, advance_failure_leaves_state 16 failingTokenClient 5 watchAt4 "io error" rfl⟩

/-- C1 (code defect): a concrete quiet tick at height 5 with the cursor at
4 — both log queries succeed, so `process_new_blocks` returns `Ok(())` —
still leaves `processed_block` at 4: nothing in the `run` loop ever writes
the cursor after a successful advance (the claim, and the spec's loop
description, say it becomes the height).  Moreover `commit_state` is called
on every tick with `height > cursor`, even when the advance fails (the
loop discards the `Result` of `process_new_blocks`), not "only after a
successful advance". -/
theorem run_tick_never_advances_cursor :
    (process_new_blocks 16 quietTickClient 5 watchAt4).2 = .ok () ∧
    (run_tick 16 quietTickClient watchAt4).1.processed_block = 4 ∧
    (run_tick 16 quietTickClient watchAt4).2 = true ∧
    (process_new_blocks 16 failingTickClient 5 watchAt4).2 =
      .error "log query failed" ∧
    (run_tick 16 failingTickClient watchAt4).2 = true ∧
    (run_tick 16 failingTickClient watchAt4).1 = watchAt4 :=
  ⟨rfl, rfl, rfl, rfl, rfl, rfl⟩

/-- C7: `restore_state_from_eth(atBlock)` on a pure chain view queries the
priority events exactly over the window
`[atBlock − PRIORITY_EXPIRATION, atBlock]` (Nat subtraction clamps at
zero) and the token events over `[0 (Earliest), atBlock]`, merging all
results into the state (queue extended in order, tokens folded through
`add_new_token`); consequently a priority event recorded strictly below
the window's lower bound is excluded from the query result. -/
theorem restore_queries_window (w EXP height block : Nat) (chain : Chain)
    (st : ETHState) :
    restore_state_from_eth w EXP (pureClient height chain) block st = .ok
      { tokens := mergeTokens w (logsInRange chain.tokenLogs 0 block) st.tokens,
        priority_queue := st.priority_queue ++
          logsInRange chain.priorityLogs (block - EXP) block } ∧
    ∀ b op, (b, op) ∈ chain.priorityLogs → b + EXP < block →
      (b, op) ∉ chain.priorityLogs.filter
        (fun p => block - EXP ≤ p.1 && p.1 ≤ block) := by
  constructor
  · simp only [restore_state_from_eth, pureClient]
    rw [foldl_add_new_token]
  · intro b op hmem hb hfil
    rw [List.mem_filter] at hfil
    have hcond := hfil.2
    simp only [Bool.and_eq_true, decide_eq_true_eq] at hcond
    omega

/-- C7 witness: the spec's expiration-window scenario — a priority event at
block 40, catch-up at block 100 with expiration 50 — leaves the queue
empty, and the event is excluded from the window query. -/
theorem restore_queries_window_witness :
    restore_state_from_eth 16 50 (pureClient 100 chainWithOpAt40) 100
      { tokens := [], priority_queue := [] } =
      .ok { tokens := [], priority_queue := [] } ∧
    (40, sampleOp) ∉ chainWithOpAt40.priorityLogs.filter
      (fun p => 100 - 50 ≤ p.1 && p.1 ≤ 100) := by
  constructor
  · exact (restore_queries_window 16 50 100 100 chainWithOpAt40
      { tokens := [], priority_queue := [] }).1.trans (by rfl)
  · exact (restore_queries_window 16 50 100 100 chainWithOpAt40
      { tokens := [], priority_queue := [] }).2 40 sampleOp
      (by simp [chainWithOpAt40]) (by omega)

/-- C8: the registry is last-writer-wins with unique keys and no deletion
path — inserting twice under one id leaves exactly one entry for that id,
mapped to the last address; a single insertion never unmaps any key; and
neither state-mutating operation (`restore_state_from_eth`,
`process_new_blocks`) ever removes a registry entry. -/
theorem registry_last_writer_wins (m : List (Nat × List Nat)) (id : Nat)
    (a1 a2 : List Nat) (hm : (m.map Prod.fst).Nodup) :
    countKey (insertToken (insertToken m id a1) id a2) id = 1 ∧
    lookupToken (insertToken (insertToken m id a1) id a2) id = some a2 ∧
    (∀ k, (lookupToken m k).isSome →
      (lookupToken (insertToken m id a1) k).isSome) ∧
    (∀ w EXP client block st st2,
      restore_state_from_eth w EXP client block st = .ok st2 →
      ∀ k, (lookupToken st.tokens k).isSome →
        (lookupToken st2.tokens k).isSome) ∧
    (∀ w client lb watch k, (lookupToken watch.eth_state.tokens k).isSome →
      (lookupToken
        (process_new_blocks w client lb watch).1.eth_state.tokens k).isSome) := by
  refine ⟨?_, lookupToken_insertToken_self _ _ _,
    fun k hk => lookupToken_insertToken_isSome _ _ _ _ hk, ?_, ?_⟩
  · exact countKey_insertToken (insertToken m id a1) id a2
      (nodup_keys_insertToken m id a1 hm)
  · intro w EXP client block st st2 hres k hk
    unfold restore_state_from_eth at hres
    cases hp : client.priorityEvents (block - EXP) block with
    | error e => rw [hp] at hres; simp at hres
    | ok ops =>
      rw [hp] at hres
      cases htk : client.tokenEvents 0 block with
      | error e => rw [htk] at hres; simp at hres
      | ok evs =>
        rw [htk] at hres
        simp only [Except.ok.injEq] at hres
        subst hres
        rw [foldl_add_new_token]
        exact lookupToken_mergeTokens_isSome _ _ _ _ hk
  · intro w client lb watch k hk
    unfold process_new_blocks
    cases htk : client.tokenEvents (watch.processed_block + 1) lb with
    | error e => exact hk
    | ok evs =>
      cases hp : client.priorityEvents (watch.processed_block + 1) lb with
      | error e => exact hk
      | ok ops =>
        dsimp only
        rw [foldl_add_new_token]
        exact lookupToken_mergeTokens_isSome _ _ _ _ hk

/-- C8 witness: on the registry {7 ↦ [1]}, inserting [2] then [3] under
id 5 leaves one entry for 5, mapped to [3]. -/
theorem registry_last_writer_wins_witness :
    countKey (insertToken (insertToken [(7, [1])] 5 [2]) 5 [3]) 5 = 1 ∧
    lookupToken (insertToken (insertToken [(7, [1])] 5 [2]) 5 [3]) 5 = some [3] :=
  ⟨(registry_last_writer_wins [(7, [1])] 5 [2] [3] (by simp)).1,
   (registry_last_writer_wins [(7, [1])] 5 [2] [3] (by simp)).2.1⟩

/-- C10: the event's uint32 id is narrowed with the `as TokenId` cast
(truncation modulo `2 ^ w`, `w` the width of `TokenId`) before insertion on
both merge paths, so any two `TokenAdded` events with ids congruent modulo
`2 ^ w` collide on the same registry key (the later one winning), both the
catch-up merge and the advance merge insert under the truncated key and
succeed, and an id at or above `2 ^ w` is silently truncated (its key
differs from the id) rather than rejected. -/
theorem token_id_narrowing (w : Nat) (e1 e2 : TokenAddedEvent)
    (st : ETHState) (hcong : e1.id % 2 ^ w = e2.id % 2 ^ w) :
    asTokenId w e1.id = asTokenId w e2.id ∧
    lookupToken (mergeTokens w [e1, e2] st.tokens) (asTokenId w e1.id) =
      some e2.address ∧
    restore_state_from_eth w 0 (constTokenClient [e1, e2]) 0 st =
      .ok { st with tokens := mergeTokens w [e1, e2] st.tokens } ∧
    (process_new_blocks w (constTokenClient [e1, e2]) 0
        { processed_block := 0, eth_state := st }).1.eth_state.tokens =
      mergeTokens w [e1, e2] st.tokens ∧
    (process_new_blocks w (constTokenClient [e1, e2]) 0
        { processed_block := 0, eth_state := st }).2 = .ok () ∧
    (2 ^ w ≤ e1.id → asTokenId w e1.id ≠ e1.id) := by
  have hkey : asTokenId w e1.id = asTokenId w e2.id := hcong
  refine ⟨hkey, ?_, ?_, ?_, ?_, ?_⟩
  · simp only [mergeTokens, List.foldl_cons, List.foldl_nil]
    rw [hkey]
    exact lookupToken_insertToken_self _ _ _
  · simp only [restore_state_from_eth, constTokenClient]
    rw [foldl_add_new_token]
    simp [mergeTokens]
  · simp only [process_new_blocks, constTokenClient]
    rw [foldl_add_new_token]
  · simp only [process_new_blocks, constTokenClient]
  · intro hle heq
    have hlt : e1.id % 2 ^ w < 2 ^ w := Nat.mod_lt _ (pow_pos (by norm_num) w)
    unfold asTokenId at heq
    rw [heq] at hlt
    exact absurd hle (not_le.mpr hlt)

/-- C10 witness: with a 16-bit `TokenId`, ids 65541 and 5 collide on key 5,
and 65541 is truncated. -/
theorem token_id_narrowing_witness :
    asTokenId 16 65541 = asTokenId 16 5 ∧ asTokenId 16 65541 ≠ 65541 := by
  have h := token_id_narrowing 16 ⟨[10], 65541⟩ ⟨[11], 5⟩
    { tokens := [], priority_queue := [] } (by norm_num)
  exact ⟨h.1, h.2.2.2.2.2 (by norm_num)⟩

end EthWatch
